import Mathlib

/-!
Verification of the switchmap_py table-join topology collector and
port-activity tracker against its natural-language specification.

The Python sources are shallowly embedded:
* dicts become association lists in insertion order (keys unique),
* a failing SNMP table query (an exception from get_table) becomes none,
* machine-level library helpers (int() on dotted-decimal OID octets,
  str.split("."), str.join, "%02x" formatting) are translated into
  executable Lean functions over List Char.
-/

namespace Switchmap

/-! ### Python library helpers, modelled over List Char -/

/-- Models Python str.split(".") for the dotted-decimal OID strings used by
the collector: split at every dot, keeping empty pieces, never returning an
empty list. -/
def splitDotsAux : List Char → List Char → List String
  | [], acc => [String.mk acc.reverse]
  | c :: cs, acc =>
    if c = '.' then String.mk acc.reverse :: splitDotsAux cs []
    else splitDotsAux cs (c :: acc)

def splitDots (s : String) : List String := splitDotsAux s.data []

/-- Models Python str.join applied to a separator and a list of strings. -/
def pyJoin (sep : String) : List String → String
  | [] => ""
  | [s] => s
  | s :: rest => s ++ sep ++ pyJoin sep rest

/-- Models Python str.isdigit for the ASCII octet strings that occur in
dotted-decimal OIDs: nonempty and all decimal digits. -/
def isdigitStr (s : String) : Bool := !s.data.isEmpty && s.data.all Char.isDigit

/-- Numeric value of an all-digit string (the value int() returns on it). -/
def pyIntNat (s : String) : Nat := s.data.foldl (fun a c => a * 10 + (c.toNat - 48)) 0

/-- Models Python int() on OID octet strings: succeeds exactly on nonempty
digit strings (signs, whitespace and underscores never occur in the
dotted-decimal OID suffixes this collector parses); a failure models the
ValueError int() raises. -/
def pyInt (s : String) : Option Nat := if isdigitStr s then some (pyIntNat s) else none

/-- Lookup in an insertion-ordered association list; models dict.get. -/
def alistGet {κ β : Type} [BEq κ] (l : List (κ × β)) (k : κ) : Option β :=
  (l.find? (fun e => e.1 == k)).map (·.2)

/-- Insert with overwrite, keeping the original position of an existing key;
models assignment into a Python dict. -/
def dictInsert {β : Type} : List (String × β) → String → β → List (String × β)
  | [], k, v => [(k, v)]
  | (k', v') :: rest, k, v =>
    if k' == k then (k, v) :: rest else (k', v') :: dictInsert rest k v

/-! ### MIB constants (snmp/mibs.py) -/

def IF_NAME : String := "1.3.6.1.2.1.31.1.1.1.1"
def IF_DESCR : String := "1.3.6.1.2.1.2.2.1.2"
def IF_ADMIN_STATUS : String := "1.3.6.1.2.1.2.2.1.7"
def IF_OPER_STATUS : String := "1.3.6.1.2.1.2.2.1.8"
def IF_SPEED : String := "1.3.6.1.2.1.2.2.1.5"
def DOT1D_TP_FDB_PORT : String := "1.3.6.1.2.1.17.4.3.1.2"
def DOT1D_TP_FDB_STATUS : String := "1.3.6.1.2.1.17.4.3.1.3"
def DOT1D_BASE_PORT_IFINDEX : String := "1.3.6.1.2.1.17.1.4.1.2"
def QBRIDGE_VLAN_FDB_PORT : String := "1.3.6.1.2.1.17.7.1.2.2.1.2"
def QBRIDGE_VLAN_FDB_STATUS : String := "1.3.6.1.2.1.17.7.1.2.2.1.3"
def QBRIDGE_VLAN_NAME : String := "1.3.6.1.2.1.17.7.1.4.3.1.1"

/-! ### The Table Source boundary (snmp/session.py) -/

/-- One walked SNMP table: OID to string value, in insertion order. -/
abbrev Table := List (String × String)

/-- A session is characterised by what get_table returns for each OID
prefix; none models get_table raising (transport failure). -/
abbrev Session := String → Option Table

/-! ### snmp/collectors.py -/

/-- _normalize_status. -/
def normalizeStatus (v : String) : String :=
  if v = "1" then "up" else if v = "2" then "down" else v

/-- The digits of n in base 16, lowercase (the digits of Python "%x"). -/
def hexDigits (n : Nat) : List Char := Nat.toDigits 16 n

/-- Python f-string formatting with "02x": lowercase hex, left-padded with
zeros to a minimum width of two. -/
def hex2 (n : Nat) : String :=
  String.mk (List.replicate (2 - (hexDigits n).length) '0' ++ hexDigits n)

/-- The octet values of the generator inside _format_mac: int() every part,
a ValueError (non-digit part) making the whole conversion fail. -/
def formatMacParts : List String → Option (List Nat)
  | [] => some []
  | p :: ps =>
    match pyInt p with
    | none => none
    | some n => (formatMacParts ps).map (n :: ·)

/-- _format_mac together with the ValueError handling at its call site:
":".join(f"\x7bint(part):02x\x7d" for part in parts). -/
def formatMac (parts : List String) : Option String :=
  (formatMacParts parts).map (fun ns => pyJoin ":" (ns.map hex2))

/-- _parse_mac_from_oid. -/
def parseMacFromOid (oid base : String) (vlanAware : Bool) :
    Option (String × Option String) :=
  let baseParts := splitDots base
  let oidParts := splitDots oid
  if oidParts.take baseParts.length ≠ baseParts then none
  else
    let suffix := oidParts.drop baseParts.length
    if vlanAware then
      if suffix.length < 7 then none
      else
        match formatMac ((suffix.drop 1).take 6) with
        | none => none
        | some mac => some (mac, some (suffix.headD ""))
    else
      if suffix.length < 6 then none
      else
        match formatMac (suffix.take 6) with
        | none => none
        | some mac => some (mac, none)

/-- _is_invalid_fdb_status. -/
def isInvalidFdbStatus (status : Option String) : Bool := status == some "2"

/-- _status_oid. -/
def statusOid (sourceBase statusBase sourceOid : String) : String :=
  let baseParts := splitDots sourceBase
  let sourceParts := splitDots sourceOid
  let suffix := sourceParts.drop baseParts.length
  if suffix.isEmpty then statusBase else statusBase ++ "." ++ pyJoin "." suffix

/-- Loop body of _bridge_port_map. -/
def bridgePortStep (acc : List (String × Nat)) (row : String × String) :
    List (String × Nat) :=
  let bridgePort := (splitDots row.1).getLastD ""
  if isdigitStr row.2 then dictInsert acc bridgePort (pyIntNat row.2) else acc

/-- _bridge_port_map: a failing query degrades to an empty mapping. -/
def bridgePortMap (S : Session) : List (String × Nat) :=
  match S DOT1D_BASE_PORT_IFINDEX with
  | none => []
  | some rows => rows.foldl bridgePortStep []

/-- macs_by_ifindex.setdefault(ifindex, set()).add(mac): the per-interface
MAC set is modelled as a duplicate-free list in first-insertion order. -/
def addMac : List (Nat × List String) → Nat → String → List (Nat × List String)
  | [], ifx, mac => [(ifx, [mac])]
  | (i, ms) :: rest, ifx, mac =>
    if i = ifx then (i, if ms.contains mac then ms else ms ++ [mac]) :: rest
    else (i, ms) :: addMac rest ifx mac

/-- The shared row-processing body of the two join loops in _collect_macs
(they differ only in the table constants and the vlan_aware flag). -/
def fdbStep (portBase statusBase : String) (bmap : List (String × Nat))
    (status : Table) (vlanAware : Bool) (acc : List (Nat × List String))
    (row : String × String) : List (Nat × List String) :=
  if isInvalidFdbStatus (alistGet status (statusOid portBase statusBase row.1)) then acc
  else
    match parseMacFromOid row.1 portBase vlanAware with
    | none => acc
    | some (mac, _) =>
      match alistGet bmap row.2 with
      | none => acc
      | some ifx => addMac acc ifx mac

/-- The VLAN-aware (Q-BRIDGE) join of _collect_macs; the status-table query
degrades to an empty table on failure. -/
def qbridgeJoin (S : Session) (bmap : List (String × Nat)) (rows : Table) :
    List (Nat × List String) :=
  let vlanStatus := (S QBRIDGE_VLAN_FDB_STATUS).getD []
  rows.foldl (fdbStep QBRIDGE_VLAN_FDB_PORT QBRIDGE_VLAN_FDB_STATUS bmap vlanStatus true) []

/-- The legacy (dot1d) join of _collect_macs. -/
def legacyJoin (bmap : List (String × Nat)) (rows : Table) (status : Table) :
    List (Nat × List String) :=
  rows.foldl (fdbStep DOT1D_TP_FDB_PORT DOT1D_TP_FDB_STATUS bmap status false) []

/-- _collect_macs. -/
def collectMacs (S : Session) : List (Nat × List String) :=
  let bmap := bridgePortMap S
  if bmap.isEmpty then []
  else
    let vlanPorts := (S QBRIDGE_VLAN_FDB_PORT).getD []
    if !vlanPorts.isEmpty then qbridgeJoin S bmap vlanPorts
    else
      match S DOT1D_TP_FDB_PORT with
      | none => []
      | some fdbPorts => legacyJoin bmap fdbPorts ((S DOT1D_TP_FDB_STATUS).getD [])

/-! ### UTC-aware datetimes (the values datetime(..., tzinfo=timezone.utc) takes)

Python represents a datetime by its calendar fields; this structure mirrors
that for the tzinfo=utc values the idle-since store handles, so equality of
aware datetimes is field equality. -/

structure Datetime where
  year : Nat
  month : Nat
  day : Nat
  hour : Nat
  minute : Nat
  second : Nat
  microsecond : Nat
deriving DecidableEq

def isLeapYear (y : Nat) : Bool := y % 4 = 0 && (y % 100 ≠ 0 || y % 400 = 0)

def daysInMonth (y m : Nat) : Nat :=
  if m = 2 then (if isLeapYear y then 29 else 28)
  else if m = 4 || m = 6 || m = 9 || m = 11 then 30
  else 31

/-- The range checks the datetime constructor (and hence fromisoformat)
enforces. -/
def Datetime.valid (d : Datetime) : Bool :=
  1 ≤ d.year && d.year ≤ 9999 && 1 ≤ d.month && d.month ≤ 12 &&
  1 ≤ d.day && d.day ≤ daysInMonth d.year d.month &&
  d.hour ≤ 23 && d.minute ≤ 59 && d.second ≤ 59 && d.microsecond ≤ 999999

/-- The mixed-radix instant key of a datetime; Python compares aware
datetimes by instant, which for two tz=utc values is exactly comparison of
this key. -/
def Datetime.key (d : Datetime) : Nat :=
  (((((d.year * 13 + d.month) * 32 + d.day) * 24 + d.hour) * 60 + d.minute) * 60
      + d.second) * 1000000 + d.microsecond

/-- The fixed-width decimal digit block of Python's zero-padded formatting:
the k digits of n, most significant first. -/
def padDigits : Nat → Nat → List Char
  | 0, _ => []
  | k + 1, n => Nat.digitChar (n / 10 ^ k % 10) :: padDigits k n

/-- datetime.isoformat() of a tz=utc value: date, "T", time, the
".ffffff" block only when microsecond is nonzero, then the "+00:00"
offset. -/
def Datetime.isoformat (d : Datetime) : String :=
  String.mk (padDigits 4 d.year ++ '-' :: padDigits 2 d.month ++ '-' :: padDigits 2 d.day
    ++ 'T' :: padDigits 2 d.hour ++ ':' :: padDigits 2 d.minute ++ ':' :: padDigits 2 d.second
    ++ (if d.microsecond = 0 then [] else '.' :: padDigits 6 d.microsecond)
    ++ ['+', '0', '0', ':', '0', '0'])

/-- Read exactly k decimal digits into an accumulator. -/
def readN : Nat → List Char → Nat → Option (Nat × List Char)
  | 0, cs, acc => some (acc, cs)
  | _ + 1, [], _ => none
  | k + 1, c :: cs, acc =>
    if c.isDigit then readN k cs (acc * 10 + (c.toNat - 48)) else none

def expectChar (c : Char) : List Char → Option (List Char)
  | [] => none
  | c' :: cs => if c' = c then some cs else none

/-- The optional fractional-second block of fromisoformat: a dot followed by
one to six digits, scaled to microseconds; absent means zero. -/
def readMicro (cs : List Char) : Option (Nat × List Char) :=
  match cs with
  | c :: rest =>
    if c = '.' then
      let ds := rest.takeWhile Char.isDigit
      if 1 ≤ ds.length ∧ ds.length ≤ 6 then
        match readN ds.length ds 0 with
        | some (v, _) => some (v * 10 ^ (6 - ds.length), rest.drop ds.length)
        | none => none
      else none
    else some (0, cs)
  | [] => some (0, cs)

/-- datetime.fromisoformat followed by .astimezone(timezone.utc), modelled
for the "+00:00"-offset strings that isoformat of a tz=utc value produces
(the only strings the idle-since round trip ever parses); astimezone is the
identity on them.  A parse or range failure is none (the caught
ValueError). -/
def fromisoformatUtc (s : String) : Option Datetime :=
  match readN 4 s.data 0 with
  | none => none
  | some (y, cs) =>
  match expectChar '-' cs with
  | none => none
  | some cs =>
  match readN 2 cs 0 with
  | none => none
  | some (mo, cs) =>
  match expectChar '-' cs with
  | none => none
  | some cs =>
  match readN 2 cs 0 with
  | none => none
  | some (da, cs) =>
  match expectChar 'T' cs with
  | none => none
  | some cs =>
  match readN 2 cs 0 with
  | none => none
  | some (h, cs) =>
  match expectChar ':' cs with
  | none => none
  | some cs =>
  match readN 2 cs 0 with
  | none => none
  | some (mi, cs) =>
  match expectChar ':' cs with
  | none => none
  | some cs =>
  match readN 2 cs 0 with
  | none => none
  | some (se, cs) =>
  match readMicro cs with
  | none => none
  | some (us, cs) =>
  match expectChar '+' cs with
  | none => none
  | some cs =>
  match expectChar '0' cs with
  | none => none
  | some cs =>
  match expectChar '0' cs with
  | none => none
  | some cs =>
  match expectChar ':' cs with
  | none => none
  | some cs =>
  match expectChar '0' cs with
  | none => none
  | some cs =>
  match expectChar '0' cs with
  | none => none
  | some cs =>
  if cs = [] then
    let d : Datetime := ⟨y, mo, da, h, mi, se, us⟩
    if d.valid then some d else none
  else none

/-! ### storage/idlesince_store.py -/

structure PortIdleState where
  port : String
  idle_since : Option Datetime
  last_active : Option Datetime
deriving DecidableEq

/-- The JSON values the store reads and writes; the file text itself is
json.dumps/json.loads of such a value. -/
inductive Json where
  | null
  | bool (b : Bool)
  | num (n : Int)
  | str (s : String)
  | arr (items : List Json)
  | obj (fields : List (String × Json))

/-- Python truthiness of a JSON-decoded value, as tested by "if not raw". -/
def jsonFalsy : Json → Bool
  | .null => true
  | .bool b => !b
  | .num n => n = 0
  | .str s => s = ""
  | .arr l => l.isEmpty
  | .obj l => l.isEmpty

/-- IdleSinceStore._parse_timestamp: a missing or falsy value is None, a
non-string is warned about and dropped, a string is parsed with
fromisoformat and converted to UTC, a ValueError is warned about and
dropped. -/
def parseTimestamp (payload : List (String × Json)) (key : String) : Option Datetime :=
  match alistGet payload key with
  | none => none
  | some j =>
    if jsonFalsy j then none
    else
      match j with
      | .str s => fromisoformatUtc s
      | _ => none

def optTimestampJson : Option Datetime → Json
  | none => Json.null
  | some d => Json.str d.isoformat

/-- IdleSinceStore.save: the JSON value written for one switch (key order
inside a JSON object is irrelevant to the dict json.loads rebuilds, so the
sort_keys=True reordering is not modelled). -/
def savePayload (data : List (String × PortIdleState)) : Json :=
  Json.obj (data.map (fun e =>
    (e.1, Json.obj [("idle_since", optTimestampJson e.2.idle_since),
                    ("last_active", optTimestampJson e.2.last_active)])))

/-- IdleSinceStore.load applied to the decoded JSON value of one switch
file: a non-object file is an empty result, a non-object per-port payload
is skipped, timestamps are recovered per _parse_timestamp. -/
def loadPayload (j : Json) : List (String × PortIdleState) :=
  match j with
  | .obj entries =>
    entries.filterMap (fun e =>
      match e.2 with
      | .obj payload =>
        some (e.1, { port := e.1,
                     idle_since := parseTimestamp payload "idle_since",
                     last_active := parseTimestamp payload "last_active" })
      | _ => none)
  | _ => []

/-- IdleSinceStore.update_port; observed_at is always supplied (the
datetime.now default only fills it in when the caller omits it).  A state
with idle_since present is repeated (datetimes are always truthy), else an
inactive observation starts the idle clock. -/
def updatePort (state : Option PortIdleState) (port : String) (isActive : Bool)
    (observedAt : Datetime) : PortIdleState :=
  if isActive then { port := port, idle_since := none, last_active := some observedAt }
  else
    match state with
    | some st =>
      match st.idle_since with
      | some t0 => { port := port, idle_since := some t0, last_active := st.last_active }
      | none => { port := port, idle_since := some observedAt, last_active := none }
    | none => { port := port, idle_since := some observedAt, last_active := none }

/-! ### model/port.py, model/vlan.py, model/switch.py, config.py -/

structure Port where
  name : String
  descr : String
  admin_status : String
  oper_status : String
  speed : Option Nat
  vlan : Option String
  macs : List String
  idle_since : Option Datetime
  last_active : Option Datetime
  is_trunk : Bool
deriving DecidableEq

structure Vlan where
  vlan_id : String
  name : String
  ports : List String
deriving DecidableEq

structure Switch where
  name : String
  management_ip : String
  vendor : String
  ports : List Port
  vlans : List Vlan
deriving DecidableEq

/-- The fields of SwitchConfig the collector reads. -/
structure SwitchConfig where
  name : String
  management_ip : String
  vendor : String
  trunk_ports : List String

/-! ### collect_switch_state (snmp/collectors.py) -/

/-- Lexicographic code-point order on strings, as Python compares them. -/
def charListLt : List Char → List Char → Bool
  | [], [] => false
  | [], _ :: _ => true
  | _ :: _, [] => false
  | a :: as, b :: bs =>
    if a.toNat < b.toNat then true
    else if b.toNat < a.toNat then false
    else charListLt as bs

def strLt (a b : String) : Bool := charListLt a.data b.data

def insertStr (x : String) : List String → List String
  | [] => [x]
  | y :: ys => if strLt x y then x :: y :: ys else y :: insertStr x ys

/-- Python sorted() on strings (stable ascending insertion sort). -/
def sortedStrings (l : List String) : List String := l.foldr insertStr []

/-- The per-row body of the interface loop in collect_switch_state,
returning the built Port together with the parsed interface index. -/
def buildPort (cfg : SwitchConfig) (descrs admin oper speeds : Table)
    (row : String × String) : Port × Option Nat :=
  let index := (splitDots row.1).getLastD ""
  let ifindex := if isdigitStr index then some (pyIntNat index) else none
  let descr := (alistGet descrs (IF_DESCR ++ "." ++ index)).getD ""
  let adminStatus := normalizeStatus ((alistGet admin (IF_ADMIN_STATUS ++ "." ++ index)).getD "")
  let operStatus := normalizeStatus ((alistGet oper (IF_OPER_STATUS ++ "." ++ index)).getD "")
  let speed := alistGet speeds (IF_SPEED ++ "." ++ index)
  ({ name := row.2
     descr := descr
     admin_status := adminStatus
     oper_status := operStatus
     speed := match speed with
       | some s => if isdigitStr s then some (pyIntNat s) else none
       | none => none
     vlan := none
     macs := []
     idle_since := none
     last_active := none
     is_trunk := cfg.trunk_ports.contains row.2 }, ifindex)

/-- Position of the port that ports_by_ifindex[i] aliases: the last row
whose index parsed to i (later rows overwrite earlier ones in the dict). -/
def lastPosFor (idxs : List (Option Nat)) (i : Nat) : Option Nat :=
  ((idxs.enum.filter (fun e => e.2 == some i)).map (·.1)).getLast?

/-- The mac-attachment loop: port.macs = sorted(macs) is visible in the
ports list exactly at the position ports_by_ifindex resolved to. -/
def attachMacs (pairs : List (Port × Option Nat)) (macsBy : List (Nat × List String)) :
    List Port :=
  pairs.enum.map (fun e =>
    match e.2.2 with
    | none => e.2.1
    | some i =>
      match alistGet macsBy i with
      | none => e.2.1
      | some ms =>
        if lastPosFor (pairs.map (·.2)) i == some e.1 then
          { e.2.1 with macs := sortedStrings ms }
        else e.2.1)

/-- collect_switch_state: the five interface-table queries are mandatory
(an SnmpError from any of them propagates, modelled by none), the VLAN name
query degrades to an empty list. -/
def collectSwitchState (cfg : SwitchConfig) (S : Session) : Option Switch := do
  let names ← S IF_NAME
  let descrs ← S IF_DESCR
  let admin ← S IF_ADMIN_STATUS
  let oper ← S IF_OPER_STATUS
  let speeds ← S IF_SPEED
  let pairs := names.map (buildPort cfg descrs admin oper speeds)
  let ports := attachMacs pairs (collectMacs S)
  let vlans := ((S QBRIDGE_VLAN_NAME).getD []).map (fun row =>
    { vlan_id := (splitDots row.1).getLastD "", name := row.2, ports := [] : Vlan })
  pure { name := cfg.name, management_ip := cfg.management_ip, vendor := cfg.vendor,
         ports := ports, vlans := vlans }

/-! ### cli.py build_html -/

/-- The exceptions a collect_switch_state call can surface in build_html:
the SnmpError raised for mandatory-table failures (the distinguishable
collection-failure condition) versus any other, programming, error. -/
inductive PyError where
  | snmpError (msg : String)
  | valueError (msg : String)
deriving DecidableEq

/-- The per-switch loop of build_html: the bare "except Exception" catches
every error, logs it and appends the switch to failed_switches, so the fold
is total over all outcomes. -/
def buildHtmlFold (results : List (String × Except PyError Switch)) :
    List Switch × List String :=
  results.foldl (fun acc r =>
    match r.2 with
    | Except.ok sw => (acc.1 ++ [sw], acc.2)
    | Except.error _ => (acc.1, acc.2 ++ [r.1])) ([], [])

/-! ### Shared fixtures and derived predicates -/

/-- The invariant claimed for a returned activity record: exactly one of
idleSince and lastActive is present. -/
def exactlyOneTimestamp (st : PortIdleState) : Prop :=
  (st.idle_since ≠ none ∧ st.last_active = none) ∨
  (st.idle_since = none ∧ st.last_active ≠ none)

instance (st : PortIdleState) : Decidable (exactlyOneTimestamp st) := by
  unfold exactlyOneTimestamp
  infer_instance

def dtT0 : Datetime := ⟨2024, 1, 1, 0, 0, 0, 0⟩
def dtT1 : Datetime := ⟨2024, 1, 2, 0, 0, 0, 0⟩
def dtT2 : Datetime := ⟨2024, 1, 3, 0, 0, 0, 0⟩

def c4Config : SwitchConfig := ⟨"sw1", "192.0.2.1", "", ["Gi1/0/1"]⟩

/-- The input of the repository's own fallback test, as a session: ifName
empty, ifDescr "Gi1/0/1", no forwarding data. -/
def c4Session : Session := fun p =>
  if p = IF_NAME then some [(IF_NAME ++ ".1", "")]
  else if p = IF_DESCR then some [(IF_DESCR ++ ".1", "Gi1/0/1")]
  else if p = IF_ADMIN_STATUS then some [(IF_ADMIN_STATUS ++ ".1", "1")]
  else if p = IF_OPER_STATUS then some [(IF_OPER_STATUS ++ ".1", "1")]
  else if p = IF_SPEED then some [(IF_SPEED ++ ".1", "1000")]
  else none

def c9OkSwitch : Switch := ⟨"sw-ok", "192.0.2.10", "", [], []⟩

/-! ### Claim C2: the exactly-one-timestamp invariant of update_port -/

/-- C2 counterexample: on an input record carrying both timestamps (a
combination the claim explicitly includes, and one load() can produce from
a file holding both), an inactive update repeats the record and returns
both timestamps present, so the result has neither exactly one of them. -/
theorem c2_counterexample :
    ¬ exactlyOneTimestamp
        (updatePort (some ⟨"Gi1/0/1", some dtT0, some dtT1⟩) "Gi1/0/1" false dtT2) := by
  decide

/-- C2 (amended): for every input record in which at most one timestamp is
present (and for an absent input), update_port returns a record with
exactly one of idleSince and lastActive present. -/
theorem c2_amended_exactly_one (state : Option PortIdleState) (port : String)
    (isActive : Bool) (observedAt : Datetime)
    (hinv : ∀ st, state = some st → st.idle_since = none ∨ st.last_active = none) :
    exactlyOneTimestamp (updatePort state port isActive observedAt) := by
  unfold updatePort exactlyOneTimestamp
  cases isActive with
  | true => simp
  | false =>
    cases state with
    | none => simp
    | some st =>
      cases hi : st.idle_since with
      | none => simp [hi]
      | some t0 =>
        rcases hinv st rfl with h | h
        · rw [hi] at h
          exact absurd h (by simp)
        · simp [hi, h]

theorem c2_amended_exactly_one_witness :
    exactlyOneTimestamp (updatePort (some ⟨"Gi1/0/1", some dtT0, none⟩) "Gi1/0/1" false dtT2) :=
  c2_amended_exactly_one (some ⟨"Gi1/0/1", some dtT0, none⟩) "Gi1/0/1" false dtT2
    (by intro st h; injection h with h; rw [← h]; exact Or.inr rfl)

/-! ### Claim C5: idleSince is sticky across repeated inactive scans -/

/-- C5: updating a record whose idleSince is T0 (and, per the record
invariant, lastActive absent) with isActive=false at a later time T1
returns idleSince T0 and lastActive absent: the idle clock does not
restart. -/
theorem c5_inactive_sticky (p : String) (t0 t1 : Datetime)
    (_hlater : t0.key < t1.key) :
    updatePort (some ⟨p, some t0, none⟩) p false t1 = ⟨p, some t0, none⟩ := rfl

theorem c5_inactive_sticky_witness :
    dtT0.key < dtT1.key ∧
    updatePort (some ⟨"Gi1/0/2", some dtT0, none⟩) "Gi1/0/2" false dtT1
      = ⟨"Gi1/0/2", some dtT0, none⟩ :=
  ⟨by decide, c5_inactive_sticky "Gi1/0/2" dtT0 dtT1 (by decide)⟩

/-! ### Claim C9: build_html catches every exception, not only the
distinguishable collection failure -/

/-- C9 evaluated at the failing input: the bare except of build_html treats
a programming error (ValueError) exactly like the distinguishable SnmpError
collection failure — the run continues and the switch is merely recorded in
failed_switches, instead of the error propagating and aborting the run.
The first conjunct shows the SnmpError half (caught, remaining switches
processed); the second is the divergence the repository's own test
test_build_html_propagates_unexpected_errors rejects. -/
theorem c9_bare_except_swallows_programming_errors :
    buildHtmlFold [("sw-bad", Except.error (PyError.snmpError "SNMP failure")),
                   ("sw-ok", Except.ok c9OkSwitch)]
      = ([c9OkSwitch], ["sw-bad"]) ∧
    buildHtmlFold [("sw-programming-error",
                    Except.error (PyError.valueError "Unexpected programming error"))]
      = ([], ["sw-programming-error"]) :=
  ⟨rfl, rfl⟩

/-! ### Claim C4: the interface normalizer has no name fallback -/

/-- C4 evaluated at the failing input of the repository's own test
test_collect_switch_state_falls_back_to_descr_or_ifindex: with ifName
empty, ifDescr "Gi1/0/1" and trunk set containing "Gi1/0/1", the collector
keeps the empty name and decides the trunk flag from that empty name, so
the port is nameless and not a trunk — the claimed descr/index fallback
does not exist in collect_switch_state. -/
theorem c4_no_name_fallback :
    (collectSwitchState c4Config c4Session).map
        (fun sw => sw.ports.map (fun p => (p.name, p.is_trunk)))
      = some [("", false)] := by
  decide

/-! ### Claim C1: the VLAN-aware scheme is exclusive once it yields rows -/

/-- C1: when the VLAN-aware forwarding-port table yields at least one row,
the joiner's result is derived exclusively from the VLAN-aware tables — it
is invariant under arbitrary changes to the legacy forwarding-port and
forwarding-status tables, even when those tables contain data. -/
theorem c1_vlan_scheme_exclusive (S S' : Session) (t : Table)
    (hq : S QBRIDGE_VLAN_FDB_PORT = some t) (ht : t ≠ [])
    (hagree : ∀ p, p ≠ DOT1D_TP_FDB_PORT → p ≠ DOT1D_TP_FDB_STATUS → S p = S' p) :
    collectMacs S = collectMacs S' := by
  have hbase : S DOT1D_BASE_PORT_IFINDEX = S' DOT1D_BASE_PORT_IFINDEX :=
    hagree _ (by decide) (by decide)
  have hq' : S' QBRIDGE_VLAN_FDB_PORT = some t := by
    rw [← hagree _ (by decide) (by decide), hq]
  have hst : S QBRIDGE_VLAN_FDB_STATUS = S' QBRIDGE_VLAN_FDB_STATUS :=
    hagree _ (by decide) (by decide)
  have hbm : bridgePortMap S = bridgePortMap S' := by
    unfold bridgePortMap
    rw [hbase]
  have hne : t.isEmpty = false := by
    cases t with
    | nil => exact absurd rfl ht
    | cons a l => rfl
  simp only [collectMacs, qbridgeJoin, hbm, hq, hq', hst, Option.getD_some, hne,
    Bool.not_false, if_true]

def c1Base : Table := [(DOT1D_BASE_PORT_IFINDEX ++ ".1", "10")]

def c1VlanRows : Table := [(QBRIDGE_VLAN_FDB_PORT ++ ".1.0.0.0.0.0.1", "1")]

def c1S : Session := fun p =>
  if p = DOT1D_BASE_PORT_IFINDEX then some c1Base
  else if p = QBRIDGE_VLAN_FDB_PORT then some c1VlanRows
  else none

/-- c1S with populated legacy forwarding tables. -/
def c1Slegacy : Session := fun p =>
  if p = DOT1D_TP_FDB_PORT then some [(DOT1D_TP_FDB_PORT ++ ".0.0.0.0.0.2", "1")]
  else if p = DOT1D_TP_FDB_STATUS then some [(DOT1D_TP_FDB_STATUS ++ ".0.0.0.0.0.2", "3")]
  else c1S p

theorem c1_vlan_scheme_exclusive_witness : collectMacs c1S = collectMacs c1Slegacy := by
  apply c1_vlan_scheme_exclusive c1S c1Slegacy c1VlanRows
  · decide
  · decide
  · intro p h1 h2
    show c1S p = c1Slegacy p
    unfold c1Slegacy
    rw [if_neg h1, if_neg h2]

/-! ### Claim C7: an empty bridge-port mapping short-circuits the joiner -/

/-- S with the four forwarding-database tables replaced by arbitrary other
query results. -/
def overrideFdb (S : Session) (q1 q2 d1 d2 : Option Table) : Session := fun p =>
  if p = QBRIDGE_VLAN_FDB_PORT then q1
  else if p = QBRIDGE_VLAN_FDB_STATUS then q2
  else if p = DOT1D_TP_FDB_PORT then d1
  else if p = DOT1D_TP_FDB_STATUS then d2
  else S p

/-- C7: a failing bridge-port-to-interface query degrades the resolver to
an empty mapping, and whenever the resolver's mapping is empty the joiner
returns an empty result no matter what any of the four forwarding tables
would return — neither scheme is consulted. -/
theorem c7_empty_bridge_map_short_circuit (S : Session) (q1 q2 d1 d2 : Option Table) :
    (S DOT1D_BASE_PORT_IFINDEX = none → bridgePortMap S = []) ∧
    (bridgePortMap S = [] → collectMacs (overrideFdb S q1 q2 d1 d2) = []) := by
  constructor
  · intro h
    unfold bridgePortMap
    rw [h]
  · intro h
    have hb : bridgePortMap (overrideFdb S q1 q2 d1 d2) = bridgePortMap S := by
      unfold bridgePortMap overrideFdb
      rw [if_neg (by decide), if_neg (by decide), if_neg (by decide), if_neg (by decide)]
    simp only [collectMacs, hb, h, List.isEmpty_nil, if_true]

theorem c7_empty_bridge_map_short_circuit_witness :
    collectMacs
        (overrideFdb (fun _ => none) (some [("1.2.3", "1")]) (some [])
          (some [("4.5.6", "2")]) (some [])) = [] :=
  (c7_empty_bridge_map_short_circuit (fun _ => none)
      (some [("1.2.3", "1")]) (some []) (some [("4.5.6", "2")]) (some [])).2 rfl

/-! ### Claim C8: VLAN-aware failure or empty result falls back to the
legacy scheme -/

/-- C8: when the bridge-port mapping is non-empty and the VLAN-aware
forwarding-port query fails (a transport error, modelled by none) or yields
zero rows, the joiner returns exactly the legacy join of the legacy
forwarding-port and forwarding-status tables. -/
theorem c8_legacy_fallback (S : Session) (rows : Table)
    (hv : S QBRIDGE_VLAN_FDB_PORT = none ∨ S QBRIDGE_VLAN_FDB_PORT = some [])
    (hb : bridgePortMap S ≠ [])
    (hp : S DOT1D_TP_FDB_PORT = some rows) :
    collectMacs S = legacyJoin (bridgePortMap S) rows ((S DOT1D_TP_FDB_STATUS).getD []) := by
  have hbe : (bridgePortMap S).isEmpty = false := by
    cases hbm : bridgePortMap S with
    | nil => exact absurd hbm hb
    | cons a l => rfl
  rcases hv with hv | hv <;>
    simp only [collectMacs, hbe, hv, hp, Option.getD_none, Option.getD_some,
      List.isEmpty_nil, Bool.not_true, if_false, Bool.false_eq_true]

def c8S : Session := fun p =>
  if p = DOT1D_BASE_PORT_IFINDEX then some [(DOT1D_BASE_PORT_IFINDEX ++ ".1", "10")]
  else if p = DOT1D_TP_FDB_PORT then some [(DOT1D_TP_FDB_PORT ++ ".0.0.0.0.0.2", "1")]
  else if p = DOT1D_TP_FDB_STATUS then some [(DOT1D_TP_FDB_STATUS ++ ".0.0.0.0.0.2", "3")]
  else none

theorem c8_legacy_fallback_witness :
    collectMacs c8S
      = legacyJoin (bridgePortMap c8S) [(DOT1D_TP_FDB_PORT ++ ".0.0.0.0.0.2", "1")]
          ((c8S DOT1D_TP_FDB_STATUS).getD []) ∧
    collectMacs c8S = [(10, ["00:00:00:00:00:02"])] :=
  ⟨c8_legacy_fallback c8S [(DOT1D_TP_FDB_PORT ++ ".0.0.0.0.0.2", "1")]
      (Or.inl (by decide)) (by decide) (by decide),
    by decide⟩

/-! ### Claim C6: rows with forwarding status "2" are excluded -/

/-- The MAC a forwarding-table row's OID decodes to, if any. -/
def macOfRow (base : String) (vlanAware : Bool) (oid : String) : Option String :=
  (parseMacFromOid oid base vlanAware).map (·.1)

/-- m appears in no MAC set of the joiner's result. -/
def macAbsent (m : String) (res : List (Nat × List String)) : Prop :=
  ∀ e ∈ res, m ∉ e.2

instance (m : String) (res : List (Nat × List String)) : Decidable (macAbsent m res) := by
  unfold macAbsent
  infer_instance

def c6OidA : String := QBRIDGE_VLAN_FDB_PORT ++ ".1.0.0.0.0.0.1"

def c6OidB : String := QBRIDGE_VLAN_FDB_PORT ++ ".2.0.0.0.0.0.1"

/-- A switch where the same MAC is learned under two VLANs: the row under
VLAN 1 has forwarding status "2", the row under VLAN 2 has status "3". -/
def c6S : Session := fun p =>
  if p = DOT1D_BASE_PORT_IFINDEX then some [(DOT1D_BASE_PORT_IFINDEX ++ ".1", "1")]
  else if p = QBRIDGE_VLAN_FDB_PORT then some [(c6OidA, "1"), (c6OidB, "1")]
  else if p = QBRIDGE_VLAN_FDB_STATUS then
    some [(QBRIDGE_VLAN_FDB_STATUS ++ ".1.0.0.0.0.0.1", "2")]
  else none

/-- C6 counterexample: the row at c6OidA has status-table value "2" at its
derived status OID, yet its MAC still appears in the joiner's result,
because the same MAC is also carried by the status-"3" row under another
VLAN — so a status-"2" row's MAC is not in general absent from the
result. -/
theorem c6_counterexample :
    (c6OidA, "1") ∈ (c6S QBRIDGE_VLAN_FDB_PORT).getD [] ∧
    alistGet ((c6S QBRIDGE_VLAN_FDB_STATUS).getD [])
        (statusOid QBRIDGE_VLAN_FDB_PORT QBRIDGE_VLAN_FDB_STATUS c6OidA) = some "2" ∧
    macOfRow QBRIDGE_VLAN_FDB_PORT true c6OidA = some "00:00:00:00:00:01" ∧
    ¬ macAbsent "00:00:00:00:00:01" (collectMacs c6S) := by
  decide

theorem addMac_preserves_absent (m mac : String) (hne : mac ≠ m) :
    ∀ (acc : List (Nat × List String)) (ifx : Nat),
      (∀ e ∈ acc, m ∉ e.2) → ∀ e ∈ addMac acc ifx mac, m ∉ e.2 := by
  intro acc
  induction acc with
  | nil =>
    intro ifx _ e he
    simp only [addMac, List.mem_singleton] at he
    subst he
    dsimp only
    intro h
    exact hne (List.mem_singleton.mp h).symm
  | cons a rest ih =>
    obtain ⟨i, ms⟩ := a
    intro ifx hacc e he
    simp only [addMac] at he
    by_cases hi : i = ifx
    · rw [if_pos hi] at he
      rcases List.mem_cons.mp he with he | he
      · subst he
        dsimp only
        by_cases hc : ms.contains mac = true
        · rw [if_pos hc]
          exact hacc (i, ms) (List.mem_cons_self _ _)
        · rw [if_neg hc]
          intro hm
          rcases List.mem_append.mp hm with hm | hm
          · exact hacc (i, ms) (List.mem_cons_self _ _) hm
          · exact hne (List.mem_singleton.mp hm).symm
      · exact hacc e (List.mem_cons_of_mem _ he)
    · rw [if_neg hi] at he
      rcases List.mem_cons.mp he with he | he
      · subst he
        exact hacc (i, ms) (List.mem_cons_self _ _)
      · exact ih ifx (fun x hx => hacc x (List.mem_cons_of_mem _ hx)) e he

theorem fdbStep_preserves_absent (pb sb : String) (bmap : List (String × Nat))
    (status : Table) (va : Bool) (m : String) (row : String × String)
    (hrow : macOfRow pb va row.1 = some m →
            isInvalidFdbStatus (alistGet status (statusOid pb sb row.1)) = true)
    (acc : List (Nat × List String)) (hacc : ∀ e ∈ acc, m ∉ e.2) :
    ∀ e ∈ fdbStep pb sb bmap status va acc row, m ∉ e.2 := by
  unfold fdbStep
  cases hs : isInvalidFdbStatus (alistGet status (statusOid pb sb row.1)) with
  | true => simpa using hacc
  | false =>
    simp only [Bool.false_eq_true, if_false]
    cases hp : parseMacFromOid row.1 pb va with
    | none => simpa using hacc
    | some pr =>
      obtain ⟨mac, vl⟩ := pr
      by_cases hm : mac = m
      · subst hm
        have := hrow (by simp [macOfRow, hp])
        rw [this] at hs
        cases hs
      · cases hb : alistGet bmap row.2 with
        | none => simpa using hacc
        | some ifx =>
          simpa using addMac_preserves_absent m mac hm acc ifx hacc

theorem foldl_fdbStep_absent (pb sb : String) (bmap : List (String × Nat))
    (status : Table) (va : Bool) (m : String) (rows : Table)
    (hrows : ∀ row ∈ rows, macOfRow pb va row.1 = some m →
             isInvalidFdbStatus (alistGet status (statusOid pb sb row.1)) = true) :
    ∀ acc, (∀ e ∈ acc, m ∉ e.2) →
      ∀ e ∈ rows.foldl (fdbStep pb sb bmap status va) acc, m ∉ e.2 := by
  induction rows with
  | nil => intro acc hacc; simpa using hacc
  | cons r rs ih =>
    intro acc hacc
    simp only [List.foldl_cons]
    exact ih (fun row hr => hrows row (List.mem_cons_of_mem _ hr)) _
      (fdbStep_preserves_absent pb sb bmap status va m r
        (hrows r (List.mem_cons_self _ _)) acc hacc)

/-- C6 (amended): a forwarding row whose status-table value at the derived
status OID equals "2" contributes nothing to the result; a MAC all of whose
rows (in the scheme actually used) carry status "2" never appears in any
interface's MAC set.  (As originally stated the claim fails: another row
with a different status can still contribute the same MAC, see the
counterexample.) -/
theorem c6_amended_status2_rows_excluded (S : Session) (m : String)
    (hvlan : ∀ row ∈ (S QBRIDGE_VLAN_FDB_PORT).getD [],
        macOfRow QBRIDGE_VLAN_FDB_PORT true row.1 = some m →
        isInvalidFdbStatus (alistGet ((S QBRIDGE_VLAN_FDB_STATUS).getD [])
          (statusOid QBRIDGE_VLAN_FDB_PORT QBRIDGE_VLAN_FDB_STATUS row.1)) = true)
    (hlegacy : ∀ row ∈ (S DOT1D_TP_FDB_PORT).getD [],
        macOfRow DOT1D_TP_FDB_PORT false row.1 = some m →
        isInvalidFdbStatus (alistGet ((S DOT1D_TP_FDB_STATUS).getD [])
          (statusOid DOT1D_TP_FDB_PORT DOT1D_TP_FDB_STATUS row.1)) = true) :
    macAbsent m (collectMacs S) := by
  unfold macAbsent
  intro e he
  unfold collectMacs at he
  by_cases hbe : (bridgePortMap S).isEmpty = true
  · rw [if_pos hbe] at he
    simp at he
  · rw [if_neg hbe] at he
    by_cases hv : ((S QBRIDGE_VLAN_FDB_PORT).getD []).isEmpty = true
    · rw [if_neg (by simp [hv])] at he
      cases hp : S DOT1D_TP_FDB_PORT with
      | none => rw [hp] at he; simp at he
      | some fdbPorts =>
        rw [hp] at he
        rw [hp] at hlegacy
        exact foldl_fdbStep_absent DOT1D_TP_FDB_PORT DOT1D_TP_FDB_STATUS
          (bridgePortMap S) ((S DOT1D_TP_FDB_STATUS).getD []) false m fdbPorts
          hlegacy [] (by simp) e he
    · rw [if_pos (by simp [hv])] at he
      unfold qbridgeJoin at he
      exact foldl_fdbStep_absent QBRIDGE_VLAN_FDB_PORT QBRIDGE_VLAN_FDB_STATUS
        (bridgePortMap S) ((S QBRIDGE_VLAN_FDB_STATUS).getD []) true m
        ((S QBRIDGE_VLAN_FDB_PORT).getD []) hvlan [] (by simp) e he

/-- c6S with the status-"3" second row removed: every row carrying the MAC
has status "2". -/
def c6WS : Session := fun p =>
  if p = DOT1D_BASE_PORT_IFINDEX then some [(DOT1D_BASE_PORT_IFINDEX ++ ".1", "1")]
  else if p = QBRIDGE_VLAN_FDB_PORT then some [(c6OidA, "1")]
  else if p = QBRIDGE_VLAN_FDB_STATUS then
    some [(QBRIDGE_VLAN_FDB_STATUS ++ ".1.0.0.0.0.0.1", "2")]
  else none

theorem c6_amended_status2_rows_excluded_witness :
    macAbsent "00:00:00:00:00:01" (collectMacs c6WS) :=
  c6_amended_status2_rows_excluded c6WS "00:00:00:00:00:01" (by decide) (by decide)

/-! ### Claim C3: legacy OID suffix parsing and MAC formatting -/

def hexLowerChar (c : Char) : Bool := c.isDigit || ('a' ≤ c && c ≤ 'f')

set_option maxRecDepth 4000 in
theorem hex2_length : ∀ n, n < 256 → (hex2 n).length = 2 := by decide

set_option maxRecDepth 4000 in
theorem hex2_chars : ∀ n, n < 256 → (hex2 n).data.all hexLowerChar = true := by decide

theorem formatMacParts_eq_none (l : List String) (h : ∃ o ∈ l, isdigitStr o = false) :
    formatMacParts l = none := by
  induction l with
  | nil => simp at h
  | cons p ps ih =>
    rcases h with ⟨o, ho, hno⟩
    rcases List.mem_cons.mp ho with ho | ho
    · subst ho
      simp [formatMacParts, pyInt, hno]
    · simp only [formatMacParts, pyInt]
      by_cases hp : isdigitStr p = true
      · rw [if_pos hp, ih ⟨o, ho, hno⟩]
        rfl
      · rw [if_neg hp]

theorem formatMacParts_eq_some (l : List String) (h : ∀ o ∈ l, isdigitStr o = true) :
    formatMacParts l = some (l.map pyIntNat) := by
  induction l with
  | nil => rfl
  | cons p ps ih =>
    simp only [formatMacParts, pyInt, h p (List.mem_cons_self _ _), if_true,
      ih (fun o ho => h o (List.mem_cons_of_mem _ ho)), Option.map_some', List.map_cons]

theorem pyJoin_length_hex2 (ns : List Nat) (h : ∀ n ∈ ns, n < 256) :
    (pyJoin ":" (ns.map hex2)).length = if ns = [] then 0 else 3 * ns.length - 1 := by
  induction ns with
  | nil => rfl
  | cons n rest ih =>
    cases rest with
    | nil =>
      simp only [List.map_cons, List.map_nil, pyJoin, if_neg (by simp : ¬(([n] : List Nat) = []))]
      rw [hex2_length n (h n (List.mem_cons_self _ _))]
      rfl
    | cons m rest2 =>
      have ihm := ih (fun x hx => h x (List.mem_cons_of_mem _ hx))
      simp only [List.map_cons] at ihm ⊢
      show ((hex2 n ++ ":" ++ pyJoin ":" (hex2 m :: rest2.map hex2))).length
        = if (n :: m :: rest2 : List Nat) = [] then 0 else 3 * (n :: m :: rest2).length - 1
      rw [String.length_append, String.length_append,
        hex2_length n (h n (List.mem_cons_self _ _))]
      rw [if_neg (by simp)] at ihm ⊢
      rw [ihm]
      have hsep : (":" : String).length = 1 := rfl
      rw [hsep]
      simp only [List.length_cons]
      omega

theorem pyJoin_chars (sep : String) (l : List String) (c : Char)
    (hc : c ∈ (pyJoin sep l).data) : (∃ s ∈ l, c ∈ s.data) ∨ c ∈ sep.data := by
  induction l with
  | nil => simp [pyJoin] at hc
  | cons s rest ih =>
    cases rest with
    | nil =>
      exact Or.inl ⟨s, List.mem_singleton.mpr rfl, hc⟩
    | cons s2 rest2 =>
      show (∃ x ∈ s :: s2 :: rest2, c ∈ x.data) ∨ c ∈ sep.data
      have hc' : c ∈ (s ++ sep ++ pyJoin sep (s2 :: rest2)).data := hc
      rw [String.data_append, String.data_append] at hc'
      rcases List.mem_append.mp hc' with hm | hm
      · rcases List.mem_append.mp hm with hm | hm
        · exact Or.inl ⟨s, List.mem_cons_self _ _, hm⟩
        · exact Or.inr hm
      · rcases ih hm with ⟨x, hx, hcx⟩ | hm
        · exact Or.inl ⟨x, List.mem_cons_of_mem _ hx, hcx⟩
        · exact Or.inr hm

/-- The index suffix of a legacy forwarding-database OID. -/
def legacySuffix (oid base : String) : List String :=
  (splitDots oid).drop (splitDots base).length

/-- The canonical MAC the parser renders from the first six suffix
octets. -/
def legacyMacString (oid base : String) : String :=
  pyJoin ":" (((legacySuffix oid base).take 6).map (fun o => hex2 (pyIntNat o)))

/-- C3 counterexample: "300" is not a valid byte value, yet int("300")
succeeds, so the parser matches and renders a three-hex-digit group instead
of returning "no match" — the resulting string is not a canonical
17-character MAC. -/
theorem c3_counterexample :
    parseMacFromOid (DOT1D_TP_FDB_PORT ++ ".300.1.2.3.4.5") DOT1D_TP_FDB_PORT false
      = some ("12c:01:02:03:04:05", none) := by
  decide

/-- C3 (amended): for a legacy forwarding OID under the table prefix, the
parser returns "no match" when the suffix has fewer than 6 octets or an
octet on which int() fails (a non-digit octet); when the first six octets
are digit strings with values at most 255 it returns a lowercase,
colon-separated, 17-character MAC whose characters are hex digits and
colons.  (Out-of-byte-range numeric octets such as 300 are not rejected,
see the counterexample.) -/
theorem c3_amended_suffix_parse (oid base : String)
    (hpre : (splitDots oid).take (splitDots base).length = splitDots base) :
    ((legacySuffix oid base).length < 6 → parseMacFromOid oid base false = none) ∧
    ((∃ o ∈ (legacySuffix oid base).take 6, isdigitStr o = false) →
      parseMacFromOid oid base false = none) ∧
    ((∀ o ∈ (legacySuffix oid base).take 6, isdigitStr o = true ∧ pyIntNat o ≤ 255) →
      6 ≤ (legacySuffix oid base).length →
      parseMacFromOid oid base false = some (legacyMacString oid base, none) ∧
        (legacyMacString oid base).length = 17 ∧
        ∀ c ∈ (legacyMacString oid base).data, c = ':' ∨ hexLowerChar c = true) := by
  have hpre' : ¬ ((splitDots oid).take (splitDots base).length ≠ splitDots base) :=
    fun h => h hpre
  unfold legacyMacString
  unfold legacySuffix
  refine ⟨?_, ?_, ?_⟩
  · intro hlen
    unfold parseMacFromOid
    rw [if_neg hpre']
    simp only [Bool.false_eq_true, if_false]
    rw [if_pos hlen]
  · intro hbad
    unfold parseMacFromOid
    rw [if_neg hpre']
    simp only [Bool.false_eq_true, if_false]
    by_cases hlen : ((splitDots oid).drop (splitDots base).length).length < 6
    · rw [if_pos hlen]
    · rw [if_neg hlen]
      have hf : formatMac (((splitDots oid).drop (splitDots base).length).take 6) = none := by
        rw [formatMac, formatMacParts_eq_none _ hbad]
        rfl
      rw [hf]
  · intro hgood hlen
    have hdig : ∀ o ∈ ((splitDots oid).drop (splitDots base).length).take 6,
        isdigitStr o = true := fun o ho => (hgood o ho).1
    have hbytes : ∀ n ∈ (((splitDots oid).drop (splitDots base).length).take 6).map pyIntNat,
        n < 256 := by
      intro n hn
      rcases List.mem_map.mp hn with ⟨o, ho, rfl⟩
      exact Nat.lt_succ_of_le (hgood o ho).2
    have htakelen : (((splitDots oid).drop (splitDots base).length).take 6).length = 6 := by
      rw [List.length_take]
      omega
    have hmm : (((splitDots oid).drop (splitDots base).length).take 6).map
          (fun o => hex2 (pyIntNat o))
        = ((((splitDots oid).drop (splitDots base).length).take 6).map pyIntNat).map hex2 := by
      rw [List.map_map]
      rfl
    have hfmt : formatMac (((splitDots oid).drop (splitDots base).length).take 6)
        = some (pyJoin ":" ((((splitDots oid).drop (splitDots base).length).take 6).map
            (fun o => hex2 (pyIntNat o)))) := by
      rw [formatMac, formatMacParts_eq_some _ hdig, Option.map_some', hmm]
    refine ⟨?_, ?_, ?_⟩
    · unfold parseMacFromOid
      rw [if_neg hpre']
      simp only [Bool.false_eq_true, if_false]
      rw [if_neg (by omega), hfmt]
    · have hlen17 := pyJoin_length_hex2
        ((((splitDots oid).drop (splitDots base).length).take 6).map pyIntNat) hbytes
      have hne : (((splitDots oid).drop (splitDots base).length).take 6).map pyIntNat ≠ [] := by
        intro h0
        have h1 := congrArg List.length h0
        rw [List.length_map, htakelen] at h1
        exact absurd h1 (by simp)
      rw [if_neg hne, List.length_map, htakelen] at hlen17
      rw [hmm, hlen17]
    · intro c hc
      rw [hmm] at hc
      rcases pyJoin_chars ":" _ c hc with ⟨s, hs, hcs⟩ | hsep
      · rcases List.mem_map.mp hs with ⟨n, hn, rfl⟩
        exact Or.inr (List.all_eq_true.mp (hex2_chars n (hbytes n hn)) c hcs)
      · exact Or.inl (List.mem_singleton.mp hsep)

theorem c3_amended_suffix_parse_witness :
    parseMacFromOid (DOT1D_TP_FDB_PORT ++ ".0.255.1.2.3.4") DOT1D_TP_FDB_PORT false
      = some ("00:ff:01:02:03:04", none) ∧
    ("00:ff:01:02:03:04" : String).length = 17 := by
  have h := (c3_amended_suffix_parse (DOT1D_TP_FDB_PORT ++ ".0.255.1.2.3.4")
    DOT1D_TP_FDB_PORT (by decide)).2.2 (by decide) (by decide)
  exact ⟨h.1.trans (by decide), by decide⟩

/-! ### Claim C10: save followed by load is a round trip -/

theorem digitChar_isDigit : ∀ m, m < 10 → (Nat.digitChar m).isDigit = true := by decide

theorem digitChar_val : ∀ m, m < 10 → (Nat.digitChar m).toNat - 48 = m := by decide

theorem padDigits_length : ∀ (k n : Nat), (padDigits k n).length = k := by
  intro k
  induction k with
  | zero => intro n; rfl
  | succ k ih => intro n; simp [padDigits, ih]

theorem padDigits_digits : ∀ (k n : Nat), ∀ c ∈ padDigits k n, c.isDigit = true := by
  intro k
  induction k with
  | zero => intro n c hc; simp [padDigits] at hc
  | succ k ih =>
    intro n c hc
    rcases List.mem_cons.mp hc with hc | hc
    · subst hc
      exact digitChar_isDigit _ (Nat.mod_lt _ (by norm_num))
    · exact ih n c hc

theorem readN_padDigits : ∀ (k n acc : Nat) (rest : List Char),
    readN k (padDigits k n ++ rest) acc = some (acc * 10 ^ k + n % 10 ^ k, rest) := by
  intro k
  induction k with
  | zero =>
    intro n acc rest
    simp [padDigits, readN, Nat.mod_one]
  | succ k ih =>
    intro n acc rest
    have hd : n / 10 ^ k % 10 < 10 := Nat.mod_lt _ (by norm_num)
    simp only [padDigits, List.cons_append, readN, List.append_eq]
    rw [if_pos (digitChar_isDigit _ hd), digitChar_val _ hd, ih n _ rest]
    have h2 : (acc * 10 + n / 10 ^ k % 10) * 10 ^ k + n % 10 ^ k
        = acc * 10 ^ (k + 1) + n % 10 ^ (k + 1) := by
      have h1 : n % 10 ^ (k + 1) = n % 10 ^ k + 10 ^ k * (n / 10 ^ k % 10) := by
        rw [pow_succ]
        exact Nat.mod_mul
      rw [h1, pow_succ]
      ring
    rw [h2]

theorem readN_exact (k n : Nat) (h : n < 10 ^ k) (rest : List Char) :
    readN k (padDigits k n ++ rest) 0 = some (n, rest) := by
  rw [readN_padDigits, Nat.zero_mul, Nat.zero_add, Nat.mod_eq_of_lt h]

theorem takeWhile_all_prefix (p : Char → Bool) (l : List Char) (c : Char) (r : List Char)
    (hl : ∀ x ∈ l, p x = true) (hc : p c = false) :
    (l ++ c :: r).takeWhile p = l := by
  induction l with
  | nil => simp [List.takeWhile_cons, hc]
  | cons a l ih =>
    simp [List.takeWhile_cons, hl a (List.mem_cons_self _ _),
      ih (fun x hx => hl x (List.mem_cons_of_mem _ hx))]

theorem isoformat_ne_empty (d : Datetime) : d.isoformat ≠ "" := by
  intro h
  have hd : (Datetime.isoformat d).data = [] := by rw [h]
  unfold Datetime.isoformat at hd
  simp [padDigits] at hd

theorem daysInMonth_le (y m : Nat) : daysInMonth y m ≤ 31 := by
  unfold daysInMonth
  split
  · split <;> omega
  · split <;> omega

/-- fromisoformat inverts isoformat on every valid UTC datetime. -/
theorem fromisoformat_isoformat (d : Datetime) (hv : d.valid = true) :
    fromisoformatUtc d.isoformat = some d := by
  obtain ⟨y, mo, da, h, mi, se, us⟩ := d
  simp only [Datetime.valid, Bool.and_eq_true, decide_eq_true_eq] at hv
  obtain ⟨⟨⟨⟨⟨⟨⟨⟨⟨hy1, hy2⟩, hmo1⟩, hmo2⟩, hda1⟩, hda2⟩, hh⟩, hmi⟩, hse⟩, hus⟩ := hv
  have hdm := daysInMonth_le y mo
  have hvalid : (⟨y, mo, da, h, mi, se, us⟩ : Datetime).valid = true := by
    simp only [Datetime.valid, Bool.and_eq_true, decide_eq_true_eq]
    exact ⟨⟨⟨⟨⟨⟨⟨⟨⟨hy1, hy2⟩, hmo1⟩, hmo2⟩, hda1⟩, hda2⟩, hh⟩, hmi⟩, hse⟩, hus⟩
  unfold fromisoformatUtc Datetime.isoformat
  dsimp only
  simp only [List.append_assoc, List.cons_append]
  rw [readN_exact 4 y (by omega) _]
  dsimp only [expectChar]
  rw [if_pos rfl]
  dsimp only
  rw [readN_exact 2 mo (by omega) _]
  dsimp only [expectChar]
  rw [if_pos rfl]
  dsimp only
  rw [readN_exact 2 da (by omega) _]
  dsimp only [expectChar]
  rw [if_pos rfl]
  dsimp only
  rw [readN_exact 2 h (by omega) _]
  dsimp only [expectChar]
  rw [if_pos rfl]
  dsimp only
  rw [readN_exact 2 mi (by omega) _]
  dsimp only [expectChar]
  rw [if_pos rfl]
  dsimp only
  by_cases hus0 : us = 0
  · subst hus0
    have hif : (if (0 : Nat) = 0 then ([] : List Char) else '.' :: padDigits 6 0) = [] := rfl
    rw [hif]
    simp only [List.nil_append]
    rw [readN_exact 2 se (by omega) _]
    dsimp only
    have hmic : readMicro ['+', '0', '0', ':', '0', '0']
        = some (0, ['+', '0', '0', ':', '0', '0']) := rfl
    rw [hmic]
    dsimp only [expectChar]
    rw [if_pos rfl]
    dsimp only
    rw [if_pos rfl]
    dsimp only
    rw [if_pos rfl]
    dsimp only
    rw [if_pos rfl]
    dsimp only
    rw [if_pos rfl]
    dsimp only
    rw [if_pos rfl]
    dsimp only
    rw [if_pos rfl, if_pos hvalid]
  · rw [if_neg hus0]
    simp only [List.cons_append]
    rw [readN_exact 2 se (by omega) _]
    dsimp only
    have hds : (padDigits 6 us ++ ['+', '0', '0', ':', '0', '0']).takeWhile Char.isDigit
        = padDigits 6 us :=
      takeWhile_all_prefix _ _ _ _ (padDigits_digits 6 us) (by decide)
    have hrd : readN 6 (padDigits 6 us) 0 = some (us, []) := by
      rw [← List.append_nil (padDigits 6 us)]
      exact readN_exact 6 us (by omega) []
    have hdrop : (padDigits 6 us ++ ['+', '0', '0', ':', '0', '0']).drop 6
        = ['+', '0', '0', ':', '0', '0'] := by
      rw [show 6 = (padDigits 6 us).length from (padDigits_length 6 us).symm]
      exact List.drop_left _ _
    have hmic2 : readMicro ('.' :: (padDigits 6 us ++ ['+', '0', '0', ':', '0', '0']))
        = some (us, ['+', '0', '0', ':', '0', '0']) := by
      unfold readMicro
      dsimp only
      rw [if_pos rfl]
      rw [hds, padDigits_length]
      rw [if_pos (by omega : 1 ≤ 6 ∧ 6 ≤ 6)]
      rw [hrd]
      dsimp only
      rw [hdrop]
      norm_num
    rw [hmic2]
    dsimp only [expectChar]
    rw [if_pos rfl]
    dsimp only
    rw [if_pos rfl]
    dsimp only
    rw [if_pos rfl]
    dsimp only
    rw [if_pos rfl]
    dsimp only
    rw [if_pos rfl]
    dsimp only
    rw [if_pos rfl]
    dsimp only
    rw [if_pos rfl, if_pos hvalid]

/-- Whether all present timestamps of an optional value are in range. -/
def optValid : Option Datetime → Bool
  | none => true
  | some d => d.valid

theorem parseTimestamp_saved_idle (o1 o2 : Option Datetime) (hv : optValid o1 = true) :
    parseTimestamp [("idle_since", optTimestampJson o1), ("last_active", optTimestampJson o2)]
      "idle_since" = o1 := by
  cases o1 with
  | none => rfl
  | some d =>
    have hg : alistGet [("idle_since", optTimestampJson (some d)),
        ("last_active", optTimestampJson o2)] "idle_since"
        = some (Json.str d.isoformat) := rfl
    unfold parseTimestamp
    rw [hg]
    have hne : jsonFalsy (Json.str d.isoformat) = false := by
      simp [jsonFalsy, isoformat_ne_empty d]
    dsimp only
    rw [hne]
    simp only [Bool.false_eq_true, if_false]
    exact fromisoformat_isoformat d hv

theorem parseTimestamp_saved_last (o1 o2 : Option Datetime) (hv : optValid o2 = true) :
    parseTimestamp [("idle_since", optTimestampJson o1), ("last_active", optTimestampJson o2)]
      "last_active" = o2 := by
  cases o2 with
  | none => rfl
  | some d =>
    have hg : alistGet [("idle_since", optTimestampJson o1),
        ("last_active", optTimestampJson (some d))] "last_active"
        = some (Json.str d.isoformat) := rfl
    unfold parseTimestamp
    rw [hg]
    have hne : jsonFalsy (Json.str d.isoformat) = false := by
      simp [jsonFalsy, isoformat_ne_empty d]
    dsimp only
    rw [hne]
    simp only [Bool.false_eq_true, if_false]
    exact fromisoformat_isoformat d hv

/-- C10: saving a per-port activity mapping whose timestamps are (valid)
UTC-aware datetimes or absent, then loading it back, returns a mapping with
the same port keys and, per port, the same idleSince and lastActive
values (the stored record's port field is rebuilt from the key). -/
theorem c10_save_load_roundtrip (data : List (String × PortIdleState))
    (h : ∀ e ∈ data, optValid e.2.idle_since = true ∧ optValid e.2.last_active = true) :
    loadPayload (savePayload data)
      = data.map (fun e => (e.1, ⟨e.1, e.2.idle_since, e.2.last_active⟩)) := by
  induction data with
  | nil => rfl
  | cons e rest ih =>
    obtain ⟨port, st⟩ := e
    have he := h (port, st) (List.mem_cons_self _ _)
    have ih' := ih (fun x hx => h x (List.mem_cons_of_mem _ hx))
    simp only [savePayload, loadPayload, List.map_cons, List.filterMap_cons] at ih' ⊢
    rw [parseTimestamp_saved_idle _ _ he.1, parseTimestamp_saved_last _ _ he.2, ih']

def c10Data : List (String × PortIdleState) :=
  [("Gi1/0/3", ⟨"Gi1/0/3", some ⟨2024, 1, 2, 3, 4, 5, 123456⟩, none⟩),
   ("Gi1/0/4", ⟨"Gi1/0/4", none, some ⟨2024, 1, 3, 4, 5, 6, 0⟩⟩)]

theorem c10_save_load_roundtrip_witness :
    loadPayload (savePayload c10Data)
      = [("Gi1/0/3", ⟨"Gi1/0/3", some ⟨2024, 1, 2, 3, 4, 5, 123456⟩, none⟩),
         ("Gi1/0/4", ⟨"Gi1/0/4", none, some ⟨2024, 1, 3, 4, 5, 6, 0⟩⟩)] :=
  (c10_save_load_roundtrip c10Data (by decide)).trans (by decide)

end Switchmap
